import Mathlib

/-!
Verification development for the RideReady beginner-motorcycle recommender.

Shallow embedding of the core of the repository:
  * `services/recommend_rules.py` : `clamp`, `validate_profile`,
    `_height_match_score`, `_beginner_power_guard`, `_base_reason_list`,
    `recommend`;
  * `app.py` : `_clean_profile`, `_to_int`, `_to_float`,
    `_guess_manufacturer`, `_normalize_external`, `_run_recommend`.

Modelling conventions:
  * Python floats are modelled as exact rationals (`ℚ`); every constant in
    the scoring code (0.6, 0.25, 0.05, 0.9, 0.45, 120.0, 60.0) is decimal
    and the claims under test concern the algebraic structure of the
    algorithm, not rounding.
  * Untyped profile input values are modelled by the dynamic type `PyVal`
    (None, int, float, str, bool, list).  A dict key that is absent is an
    `Option.none` field of the record; a key present with value `None` is
    `some PyVal.none` where typing matters (profiles), while in vehicle
    records an absent key and a `None` value behave identically through
    `dict.get` and are both modelled as `none`.
  * `int(s)` on a string is modelled by `String.toInt?` and `float(s)` by a
    decimal parser; the whitespace / underscore / exponent tolerance of the
    CPython parsers is not modelled (no claim depends on it).
  * Python's `list.sort(key=..., reverse=True)` is a stable descending
    sort on a totally ordered key; it is modelled by the stable
    `List.insertionSort` with relation `fun x y => y.1 ≤ x.1`.
  * Exceptions are modelled with `Except String`.
-/

/-- Dynamic Python value, covering the shapes the profile code can meet. -/
inductive PyVal where
  | none : PyVal
  | int (n : ℤ) : PyVal
  | float (q : ℚ) : PyVal
  | str (s : String) : PyVal
  | bool (b : Bool) : PyVal
  | list (xs : List PyVal) : PyVal

/-- Python truthiness of a `PyVal` (used by `or` chains and `if v:`). -/
def pyTruthy : PyVal → Bool
  | .none => false
  | .int n => n ≠ 0
  | .float q => q ≠ 0
  | .str s => s ≠ ""
  | .bool b => b
  | .list xs => !xs.isEmpty

/-- Truncation of a rational toward zero, the behaviour of Python `int(float)`. -/
def ratTrunc (q : ℚ) : ℤ :=
  if q < 0 then -((-q).num / ((-q).den : ℤ)) else q.num / (q.den : ℤ)

/-- Numeric value of a list of decimal digit characters. -/
def digitsNat (cs : List Char) : ℕ :=
  cs.foldl (fun a c => a * 10 + (c.toNat - 48)) 0

/-- Parse an unsigned decimal literal (`"12"`, `"12."`, `".5"`, `"12.5"`).
Rationals are assembled with `mkRat` so the parser evaluates by kernel
reduction. -/
def parseUnsignedDecimal (cs : List Char) : Option ℚ :=
  match cs.splitOn '.' with
  | [ip] =>
      if !ip.isEmpty && ip.all Char.isDigit then some (mkRat (digitsNat ip) 1) else Option.none
  | [ip, fp] =>
      if (!ip.isEmpty || !fp.isEmpty) && ip.all Char.isDigit && fp.all Char.isDigit then
        some (mkRat (digitsNat ip * 10 ^ fp.length + digitsNat fp) (10 ^ fp.length))
      else Option.none
  | _ => Option.none

/-- Parse a signed decimal literal, the model of `float(str)`. -/
def parseDecimal (s : String) : Option ℚ :=
  match s.data with
  | '-' :: rest => (parseUnsignedDecimal rest).map (fun q => -q)
  | '+' :: rest => parseUnsignedDecimal rest
  | cs => parseUnsignedDecimal cs

/-- Parse a signed integer literal, the model of `int(str)`. -/
def parseIntStr (s : String) : Option ℤ :=
  match s.data with
  | '-' :: rest =>
      if !rest.isEmpty && rest.all Char.isDigit then some (-(digitsNat rest : ℤ)) else Option.none
  | '+' :: rest =>
      if !rest.isEmpty && rest.all Char.isDigit then some ((digitsNat rest : ℤ)) else Option.none
  | cs =>
      if !cs.isEmpty && cs.all Char.isDigit then some ((digitsNat cs : ℤ)) else Option.none

/-- Python `int(v)`: succeeds on ints, bools, floats (truncating) and
integer-literal strings; raises `TypeError` / `ValueError` otherwise. -/
def pyInt : PyVal → Except String ℤ
  | .int n => .ok n
  | .bool b => .ok (if b then 1 else 0)
  | .float q => .ok (ratTrunc q)
  | .str s =>
      match parseIntStr s with
      | some n => .ok n
      | Option.none => .error "ValueError: invalid literal for int"
  | .none => .error "TypeError: int of NoneType"
  | .list _ => .error "TypeError: int of list"

/-- Python `float(v)`: succeeds on ints, bools, floats and decimal strings. -/
def pyFloat : PyVal → Except String ℚ
  | .int n => .ok (mkRat n 1)
  | .bool b => .ok (if b then 1 else 0)
  | .float q => .ok q
  | .str s =>
      match parseDecimal s with
      | some q => .ok q
      | Option.none => .error "ValueError: could not convert string to float"
  | .none => .error "TypeError: float of NoneType"
  | .list _ => .error "TypeError: float of list"

/-- Untrusted profile mapping: each field is a dict key that may be absent
(`none`) or hold an arbitrary dynamic value.  Keys the code never reads are
omitted. -/
structure RawProfile where
  experience : Option PyVal := Option.none
  height_cm : Option PyVal := Option.none
  budget_usd : Option PyVal := Option.none
  k : Option PyVal := Option.none
  bike_types : Option PyVal := Option.none

/-- Normalized rider profile, the return shape of `validate_profile`. -/
structure Profile where
  experience : String
  height_cm : ℤ
  budget_usd : ℤ
  k : ℤ
  bike_types : List String
  riding_style : List String := []
deriving DecidableEq

/-- The allowed category enum `ALLOWED_TYPES` of recommend_rules.py. -/
def ALLOWED_TYPES : List String :=
  ["cruiser", "standard", "sportbike", "naked", "adventure", "touring", "dual_sport"]

/-- Source `clamp(n, lo, hi) = max(lo, min(hi, int(n)))` after the `int`
conversion has succeeded. -/
def clamp (n lo hi : ℤ) : ℤ :=
  max lo (min hi n)

/-- Source `clamp` applied to a dynamic value: `int(n)` may raise. -/
def clampE (v : PyVal) (lo hi : ℤ) : Except String ℤ :=
  (pyInt v).map (fun n => clamp n lo hi)

/-- Membership test `t in ALLOWED_TYPES` for a dynamic element, which in
Python raises `TypeError` when `t` is unhashable (a list). -/
def setMemberCheck (v : PyVal) : Except String (Option String) :=
  match v with
  | .list _ => .error "TypeError: unhashable type"
  | .str s => .ok (if s ∈ ALLOWED_TYPES then some s else Option.none)
  | _ => .ok Option.none

/-- The `experience` normalization of `validate_profile` (lines 12-14):
`p.get("experience", "no_experience")` restricted to the two enum values. -/
def expOf (o : Option PyVal) : String :=
  match o.getD (.str "no_experience") with
  | .str s => if s = "no_experience" ∨ s = "little_experience" then s else "no_experience"
  | _ => "no_experience"

/-- Left-to-right effectful map over `Except`, the evaluation order of a
Python list comprehension that can raise: stops at the first error. -/
def mapExcept (f : α → Except String β) : List α → Except String (List β)
  | [] => .ok []
  | x :: xs => do
      let y ← f x
      let ys ← mapExcept f xs
      pure (y :: ys)

/-- The `bike_types` normalization of `validate_profile` (lines 21-24):
`p.get("bike_types") or []`, the `isinstance(list)` guard, the
`t in ALLOWED_TYPES` comprehension (which can raise on unhashable
elements) and the `[:5]` truncation. -/
def bikeTypesOf (o : Option PyVal) : Except String (List String) :=
  let bt0 := o.getD .none
  let bt1 := if pyTruthy bt0 then bt0 else .list []
  match bt1 with
  | .list xs => do
      let kept ← mapExcept setMemberCheck xs
      pure ((kept.filterMap id).take 5)
  | _ => pure []

/-- Embedding of `validate_profile` (recommend_rules.py lines 11-33).
The `int` conversions inside `clamp` and the set-membership test on
`bike_types` elements are the only places that can raise. -/
def validate_profile (p : RawProfile) : Except String Profile := do
  let exp := expOf p.experience
  let height_cm ← clampE (p.height_cm.getD (.int 170)) 140 210
  let budget_usd ← clampE (p.budget_usd.getD (.int 6000)) 1000 20000
  let k ← clampE (p.k.getD (.int 3)) 1 6
  let bike_types ← bikeTypesOf p.bike_types
  pure { experience := exp, height_cm := height_cm, budget_usd := budget_usd,
         k := k, bike_types := bike_types, riding_style := [] }

example : (validate_profile {}).toOption =
    some { experience := "no_experience", height_cm := 170, budget_usd := 6000,
           k := 3, bike_types := [], riding_style := [] } := by decide

example : (validate_profile { height_cm := some (.str "tall") }).isOk = false := by decide

example : (validate_profile { height_cm := some (.float (mkRat 251 2)) }).toOption =
    some { experience := "no_experience", height_cm := 140, budget_usd := 6000,
           k := 3, bike_types := [], riding_style := [] } := by decide

example : (validate_profile { k := some (.str "5") }).toOption =
    some { experience := "no_experience", height_cm := 170, budget_usd := 6000,
           k := 5, bike_types := [], riding_style := [] } := by decide

example : (validate_profile { bike_types := some (.str "cruiser") }).toOption =
    some { experience := "no_experience", height_cm := 170, budget_usd := 6000,
           k := 3, bike_types := [], riding_style := [] } := by decide

example : (validate_profile
      { bike_types := some (.list [.str "Cruiser", .str "naked", .int 3]) }).toOption =
    some { experience := "no_experience", height_cm := 170, budget_usd := 6000,
           k := 3, bike_types := ["naked"], riding_style := [] } := by decide

/-- Vehicle record / result-card item.  Every field is a dict key that may be
absent (`none`); a key present with Python value `None` behaves like an
absent key through every `dict.get` access in the modelled code and is also
modelled as `none` (only `recommend`'s mandatory `b["id"]`-style accesses
distinguish the two, and there a `None` value would flow through — this
conflation is noted where it matters).  Numeric spec values are rationals;
a non-numeric spec value (which `isinstance` guards filter out in the
source) is outside the typed model. -/
structure Item where
  id : Option String := Option.none
  name : Option String := Option.none
  manufacturer : Option String := Option.none
  category : Option String := Option.none
  engine_cc : Option ℚ := Option.none
  seat_height_mm : Option ℚ := Option.none
  wet_weight_kg : Option ℚ := Option.none
  abs : Option Bool := Option.none
  max_speed_mph : Option ℚ := Option.none
  top_speed_mph : Option ℚ := Option.none
  zero_to_sixty_s : Option ℚ := Option.none
  official_url : Option String := Option.none
  mfr_domain : Option String := Option.none
  image_query : Option String := Option.none
  local_image : Option String := Option.none
  reasons : List String := []
deriving DecidableEq

/-- ASCII lower-casing of a string by structural recursion over its
characters (`str.lower()` on the ASCII data the catalog holds). -/
def strLower (s : String) : String :=
  ⟨s.data.map Char.toLower⟩

/-- Embedding of `_height_match_score` (recommend_rules.py lines 35-41). -/
def height_match_score (seat_height_mm : Option ℚ) (rider_height_cm : ℤ) : ℚ :=
  let inseam_mm : ℚ := (rider_height_cm : ℚ) * 10 * (45 / 100)
  match seat_height_mm with
  | Option.none => 0
  | some s =>
      let diff := |s - inseam_mm|
      max 0 (1 - diff / 120)

/-- Embedding of `_beginner_power_guard` (recommend_rules.py lines 43-52):
a multiplicative dampener, 1 unless the rider has `no_experience`. -/
def beginner_power_guard (exp : String) (max_speed_mph : Option ℚ)
    (zero_to_sixty_s : Option ℚ) : ℚ :=
  if exp ≠ "no_experience" then 1
  else
    (match max_speed_mph with
     | some v => if v ≥ 115 then 9 / 10 else 1
     | Option.none => 1) *
    (match zero_to_sixty_s with
     | some z => if z ≤ 5 then 9 / 10 else 1
     | Option.none => 1)

/-- Embedding of `_base_reason_list` (recommend_rules.py lines 54-64): the
imperative appends are written as list concatenation in the same order. -/
def base_reason_list (bike : Item) (prof : Profile) : List String :=
  let R :=
    (if bike.abs = some true then ["Has ABS"] else []) ++
    (match bike.wet_weight_kg with
     | some w => if w ≤ 172 then ["Lightweight"] else []
     | Option.none => []) ++
    (match bike.seat_height_mm with
     | some s =>
         if height_match_score (some s) prof.height_cm ≥ 7 / 10 then
           ["Seat height close to estimated inseam"]
         else []
     | Option.none => [])
  R.take 5

/-- The seat-height term of the rule score: `0.6 * _height_match_score(...)`. -/
def hmTermOf (b : Item) (prof : Profile) : ℚ :=
  (6 / 10) * height_match_score b.seat_height_mm prof.height_cm

/-- The weight term of the rule score:
`0.25 * max(0.0, 1.0 - (w - 150) / 60.0)` when `wet_weight_kg` is numeric,
else 0 (the `isinstance` guard). -/
def wTermOf (b : Item) : ℚ :=
  match b.wet_weight_kg with
  | some w => (25 / 100) * max 0 (1 - (w - 150) / 60)
  | Option.none => 0

/-- The ABS term of the rule score: `0.05` exactly when `abs is True`. -/
def absTermOf (b : Item) : ℚ :=
  if b.abs = some true then 5 / 100 else 0

/-- The score a bike receives in `recommend` (recommend_rules.py lines
80-93): the three additive terms accumulated into `score`, then multiplied
by the beginner power guard. -/
def scoreOf (b : Item) (prof : Profile) : ℚ :=
  (hmTermOf b prof + wTermOf b + absTermOf b) *
    beginner_power_guard prof.experience b.max_speed_mph b.zero_to_sixty_s

/-- Mandatory dict access `b["key"]`: raises `KeyError` when absent. -/
def reqField (o : Option α) (key : String) : Except String α :=
  match o with
  | some v => .ok v
  | Option.none => .error ("KeyError: " ++ key)

/-- The output card built for one ranked bike (recommend_rules.py lines
101-121).  `id`, `name`, `manufacturer`, `category` are mandatory
(`b[...]`), the rest are `b.get(...)`. -/
def buildCard (b : Item) (prof : Profile) : Except String Item := do
  let i ← reqField b.id "id"
  let n ← reqField b.name "name"
  let m ← reqField b.manufacturer "manufacturer"
  let c ← reqField b.category "category"
  pure { id := some i, name := some n, manufacturer := some m, category := some c,
         engine_cc := b.engine_cc, seat_height_mm := b.seat_height_mm,
         wet_weight_kg := b.wet_weight_kg, abs := b.abs,
         max_speed_mph := b.max_speed_mph, zero_to_sixty_s := b.zero_to_sixty_s,
         official_url := b.official_url, mfr_domain := b.mfr_domain,
         reasons := base_reason_list b prof, local_image := b.local_image }

/-- The category filter of `recommend` (lines 70-76): keep `b` when
`bt_set` is empty or `(b.get("category") or "").lower()` belongs to it. -/
def categoryKeep (bike_types : List String) (b : Item) : Bool :=
  bike_types.isEmpty || bike_types.contains (strLower ((b.category.getD "")))

/-- Body of `recommend` after profile validation (recommend_rules.py lines
69-123).  Python's stable `list.sort(key=score, reverse=True)` is modelled
by the stable `List.insertionSort` with the descending relation on the
score component. -/
def recommendWith (bikes : List Item) (prof : Profile) : Except String (List Item) := do
  let filtered := bikes.filter (categoryKeep prof.bike_types)
  let ranked := filtered.map (fun b => (scoreOf b prof, b))
  let sorted := List.insertionSort (fun x y : ℚ × Item => y.1 ≤ x.1) ranked
  let top := sorted.take (prof.k * 3).toNat
  let out ← mapExcept (fun sb => buildCard sb.2 prof) top
  pure (out.take (max prof.k 1).toNat)

/-- Embedding of `recommend` (recommend_rules.py lines 66-123).
Exceptions (`validate_profile` conversions, `KeyError` on missing required
fields) surface as `Except.error`. -/
def recommend (bikes : List Item) (profile : RawProfile) : Except String (List Item) := do
  let prof ← validate_profile profile
  recommendWith bikes prof

example : recommend [] {} = .ok [] := by rfl

example : (recommend [{}] {}) = .error "KeyError: id" := by rfl

example :
    (recommend [{ id := some "honda_rebel300", name := some "Rebel 300",
                  manufacturer := some "Honda", category := some "cruiser" }] {}).isOk
      = true := by rfl

/-- Embedding of `_to_int` (app.py lines 159-168): best-effort integer
conversion, `int(val)` then `int(float(val))`, falling back to the default. -/
def to_int (val : PyVal) (dflt : ℤ) : ℤ :=
  match val with
  | .none => dflt
  | v =>
      match pyInt v with
      | .ok n => n
      | .error _ =>
          match pyFloat v with
          | .ok q => ratTrunc q
          | .error _ => dflt

/-- Embedding of `_to_float` (app.py lines 170-176). -/
def to_float (val : PyVal) (dflt : ℚ) : ℚ :=
  match val with
  | .none => dflt
  | v =>
      match pyFloat v with
      | .ok q => q
      | .error _ => dflt

/-- Embedding of `_clean_profile` (app.py lines 30-37): a dict-to-dict
sanitizer, so its result is again a `RawProfile` of dynamic values. -/
def clean_profile (d : RawProfile) : RawProfile :=
  { experience := some (let v := d.experience.getD .none;
                        if pyTruthy v then v else .str "no_experience"),
    height_cm := some (.int (to_int (d.height_cm.getD .none) 170)),
    budget_usd := some (.float (to_float (d.budget_usd.getD .none) 999999)),
    bike_types := some (let v := d.bike_types.getD .none;
                        if pyTruthy v then v else .list []),
    k := some (.int (max 1 (min 6 (to_int (d.k.getD .none) 2)))) }

/-- Dedup key of `_key` (app.py lines 88-93): a truthy `id` keys the item;
otherwise the lowercase (manufacturer, name) pair does. -/
inductive DedupKey where
  | kid (s : String) : DedupKey
  | kmk (manufacturer name : String) : DedupKey
deriving DecidableEq

/-- Embedding of `_key` (app.py lines 88-93) on typed items (the non-dict
guard of the source is vacuous here). -/
def keyOf (it : Item) : DedupKey :=
  if (it.id.getD "") ≠ "" then .kid (it.id.getD "")
  else .kmk (strLower (it.manufacturer.getD "")) (strLower (it.name.getD ""))

/-- Embedding of `_add` (app.py lines 95-100) acting on the
`(seen, out)` state: skip an already-seen key, else record and append. -/
def addItem (st : List DedupKey × List Item) (it : Item) : List DedupKey × List Item :=
  let k := keyOf it
  if k ∈ st.1 then st else (k :: st.1, st.2 ++ [it])

/-- The `by_id` index (app.py line 82) followed by `.get(pid)`:
a dict comprehension keyed by truthy ids, later records overwriting
earlier ones, hence lookup finds the last matching record. -/
def byId (bikes : List Item) (pid : String) : Option Item :=
  ((bikes.filter (fun b => (b.id.getD "") ≠ "")).reverse).find? (fun b => b.id = some pid)

/-- Specs sub-dict of an external item. -/
structure ExtSpecs where
  category : Option String := Option.none
  engine_cc : Option ℚ := Option.none
  seat_height_mm : Option ℚ := Option.none
  wet_weight_kg : Option ℚ := Option.none
  abs : Option Bool := Option.none
  max_speed_mph : Option ℚ := Option.none
  zero_to_sixty_s : Option ℚ := Option.none
deriving DecidableEq

/-- External (non-catalog) candidate as fed to `_normalize_external`.
`specs` absent, `None` or `{}` all behave as the empty sub-dict. -/
structure ExtItem where
  label : Option String := Option.none
  name : Option String := Option.none
  manufacturer : Option String := Option.none
  category : Option String := Option.none
  specs : ExtSpecs := {}
  top_speed_mph : Option ℚ := Option.none
  zero_to_sixty_s : Option ℚ := Option.none
  official_url : Option String := Option.none
  mfr_domain : Option String := Option.none
  image_query : Option String := Option.none
deriving DecidableEq

/-- Python `a or b` on optional strings, where `None` and `""` are falsy. -/
def orStr (a b : Option String) : Option String :=
  match a with
  | some s => if s = "" then b else some s
  | Option.none => b

/-- Python `a or b` on optional numbers, where `None` and `0` are falsy. -/
def orQ (a b : Option ℚ) : Option ℚ :=
  match a with
  | some q => if q = 0 then b else some q
  | Option.none => b

/-- Python `a or d` collapsing to a definite string default. -/
def orStrD (a : Option String) (d : String) : String :=
  match a with
  | some s => if s = "" then d else s
  | Option.none => d

/-- Whitespace split of `str.split()` (no empty fragments), by structural
recursion over the characters. -/
def splitWSAux (acc : List Char) : List Char → List String
  | [] => if acc.isEmpty then [] else [String.mk acc.reverse]
  | c :: cs =>
      if c.isWhitespace then
        (if acc.isEmpty then splitWSAux [] cs else String.mk acc.reverse :: splitWSAux [] cs)
      else splitWSAux (c :: acc) cs

/-- Python `label.split()`. -/
def splitWS (s : String) : List String :=
  splitWSAux [] s.data

/-- Embedding of `_guess_manufacturer` (app.py lines 128-132):
`label.split()[0]` raises `IndexError` on a whitespace-only label. -/
def guess_manufacturer (label : String) : Except String (Option String) :=
  if label = "" then pure Option.none
  else
    match splitWS label with
    | [] => .error "IndexError: list index out of range"
    | t :: _ => pure (some t)

/-- Embedding of `_normalize_external` (app.py lines 134-157).  An error is
swallowed by the caller's `try`/`except`, which skips the item. -/
def normalize_external (ext : ExtItem) : Except String Item := do
  let specs := ext.specs
  let label := orStrD (orStr ext.label ext.name) "Motorcycle"
  let manufacturer ←
    match ext.manufacturer with
    | some s => if s = "" then guess_manufacturer label else pure (some s)
    | Option.none => guess_manufacturer label
  pure { id := Option.none, name := some label, manufacturer := manufacturer,
         category := orStr specs.category ext.category,
         engine_cc := specs.engine_cc, seat_height_mm := specs.seat_height_mm,
         wet_weight_kg := specs.wet_weight_kg, abs := specs.abs,
         top_speed_mph := orQ specs.max_speed_mph ext.top_speed_mph,
         zero_to_sixty_s := orQ specs.zero_to_sixty_s ext.zero_to_sixty_s,
         official_url := ext.official_url, mfr_domain := ext.mfr_domain,
         image_query := some (orStrD ext.image_query label) }

/-- The three `_add` loops of `_run_recommend` (app.py lines 84-121):
resolved pins, then normalized externals, then rule picks, threaded through
one `(seen, out)` state; returns the merged `out` before the cap. -/
def mergeStreams (bikes : List Item) (pin_ids : List String) (external_items : List ExtItem)
    (picked : List Item) : List Item :=
  let resolved := pin_ids.filterMap (byId bikes)
  let normed := external_items.filterMap (fun e => (normalize_external e).toOption)
  let st1 := resolved.foldl addItem ([], [])
  let st2 := normed.foldl addItem st1
  let st3 := picked.foldl addItem st2
  st3.2

/-- The merge-and-cap tail of `_run_recommend` (app.py lines 84-124),
parameterized by the rule-pick list `picked` and the clamped target `k`. -/
def run_recommend_merge (bikes : List Item) (pin_ids : List String)
    (external_items : List ExtItem) (picked : List Item) (k : ℕ) : List Item :=
  (mergeStreams bikes pin_ids external_items picked).take k

/-- Modelled from the spec: `apply_filters` is imported by `app.py` from
`services.recommend_rules` but is absent from the source tree; per §4.3
step 1 it is the hard category filter of the Shortlist Ranker (skip the
filter when `bike_types` is empty), applied to the normalized profile. -/
def apply_filters (bikes : List Item) (profile : RawProfile) : List Item :=
  match validate_profile profile with
  | .ok prof => bikes.filter (categoryKeep prof.bike_types)
  | .error _ => []

/-- Modelled from the spec: `pick_reasons` is imported by `app.py` but
absent from the source tree; per §4.3 the rule-pick stage is the Shortlist
Ranker, whose algorithm in this repository is `recommend`
(recommend_rules.py). -/
def pick_reasons (bikes : List Item) (profile : RawProfile) : Except String (List Item) :=
  recommend bikes profile

/-- The `k` read back from a cleaned profile dict (`profile["k"]`). -/
def profileK (p : RawProfile) : ℤ :=
  match p.k with
  | some (.int n) => n
  | _ => 0

/-- Embedding of `_run_recommend` (app.py lines 39-124): sanitize the
profile, filter, take rule picks (falling back to the filtered list when
the rule stage raises), merge pins / externals / picks with dedup, cap to
`k`.  The catalog `bikes` is a parameter (`load_bikes` is out-of-scope
I/O). -/
def run_recommend_clean (profile : RawProfile) (bikes : List Item) (pin_ids : List String)
    (external_items : List ExtItem) : List Item :=
  let filtered := apply_filters bikes profile
  let picked :=
    match pick_reasons filtered profile with
    | .ok l => l
    | .error _ => filtered
  let k := (profileK profile).toNat
  (mergeStreams bikes pin_ids external_items picked).take k

/-- The full `_run_recommend`: sanitize, then the body above. -/
def run_recommend (raw : RawProfile) (bikes : List Item) (pin_ids : List String)
    (external_items : List ExtItem) : List Item :=
  run_recommend_clean (clean_profile raw) bikes pin_ids external_items

example :
    run_recommend {} [{ id := some "yamaha_r3", name := some "YZF-R3",
                        manufacturer := some "Yamaha", category := some "sportbike" }]
      ["yamaha_r3"] []
    = [{ id := some "yamaha_r3", name := some "YZF-R3",
         manufacturer := some "Yamaha", category := some "sportbike" }] := by rfl

example :
    (normalize_external { label := some "BMW G 310 R" }).toOption.map Item.manufacturer
      = some (some "BMW") := by rfl

example :
    run_recommend {} [{ id := some "honda_rebel300", name := some "Rebel 300",
                        manufacturer := some "Honda", category := some "cruiser" }]
      ["honda_rebel300"] []
    = [{ id := some "honda_rebel300", name := some "Rebel 300",
         manufacturer := some "Honda", category := some "cruiser" }] := by rfl

/-- The concatenated candidate stream of the three merge sources, in
priority order: resolved pins, normalized externals, rule picks. -/
def candidateStream (bikes : List Item) (pin_ids : List String)
    (external_items : List ExtItem) (picked : List Item) : List Item :=
  pin_ids.filterMap (byId bikes) ++
    external_items.filterMap (fun e => (normalize_external e).toOption) ++ picked

/-- First-occurrence deduplication by `keyOf`, relative to an already-seen
key set: the declarative counterpart of the `_add` loop. -/
def dedupFrom (seen : List DedupKey) : List Item → List Item
  | [] => []
  | x :: xs =>
      if keyOf x ∈ seen then dedupFrom seen xs
      else x :: dedupFrom (keyOf x :: seen) xs

/-- The seen-key set after folding `_add` over a list. -/
def seenAfter (seen : List DedupKey) : List Item → List DedupKey
  | [] => seen
  | x :: xs =>
      if keyOf x ∈ seen then seenAfter seen xs else seenAfter (keyOf x :: seen) xs

/-- The strings of a raw `bike_types` value when it is a list, else `[]`
(used to state what `validate_profile` keeps). -/
def rawBikeTypeStrings (p : RawProfile) : List String :=
  match p.bike_types with
  | some (.list xs) =>
      xs.filterMap (fun v => match v with | .str s => some s | _ => Option.none)
  | _ => []

/-- Decidable success of the `int` conversion a numeric profile field will
undergo inside `clamp` (absent fields convert their integer defaults). -/
def intConvertible (o : Option PyVal) : Bool :=
  match o with
  | Option.none => true
  | some v => (pyInt v).isOk

/-- Decidable absence of unhashable (list) elements in a raw `bike_types`
value, the condition for the `t in ALLOWED_TYPES` tests not to raise. -/
def hashableBikeTypes (o : Option PyVal) : Bool :=
  match o with
  | some (.list xs) => xs.all (fun v => match v with | .list _ => false | _ => true)
  | _ => true

/-- Concrete catalog record used by closed witness instances. -/
def r3Bike : Item :=
  { id := some "yamaha_r3", name := some "YZF-R3", manufacturer := some "Yamaha",
    category := some "sportbike" }

/-- Concrete catalog record used by closed witness instances. -/
def rebelBike : Item :=
  { id := some "honda_rebel300", name := some "Rebel 300", manufacturer := some "Honda",
    category := some "cruiser" }

theorem foldl_addItem (l : List Item) (seen : List DedupKey) (out : List Item) :
    l.foldl addItem (seen, out) = (seenAfter seen l, out ++ dedupFrom seen l) := by
  induction l generalizing seen out with
  | nil => simp [seenAfter, dedupFrom]
  | cons x xs ih =>
      by_cases h : keyOf x ∈ seen
      · simp [List.foldl_cons, addItem, h, seenAfter, dedupFrom, ih]
      · simp [List.foldl_cons, addItem, h, seenAfter, dedupFrom, ih]

theorem dedupFrom_append (l1 l2 : List Item) (seen : List DedupKey) :
    dedupFrom seen (l1 ++ l2) = dedupFrom seen l1 ++ dedupFrom (seenAfter seen l1) l2 := by
  induction l1 generalizing seen with
  | nil => simp [dedupFrom, seenAfter]
  | cons x xs ih =>
      by_cases h : keyOf x ∈ seen <;> simp [dedupFrom, seenAfter, h, ih]

theorem mergeStreams_eq (bikes : List Item) (pins : List String) (exts : List ExtItem)
    (picked : List Item) :
    mergeStreams bikes pins exts picked
      = dedupFrom [] (candidateStream bikes pins exts picked) := by
  simp only [mergeStreams, candidateStream]
  rw [foldl_addItem, foldl_addItem, foldl_addItem]
  simp [dedupFrom_append]

theorem mem_of_mem_dedupFrom {x : Item} :
    ∀ {l : List Item} {seen : List DedupKey}, x ∈ dedupFrom seen l → x ∈ l := by
  intro l
  induction l with
  | nil => intro _ h; simp [dedupFrom] at h
  | cons y ys ih =>
      intro seen h
      by_cases hk : keyOf y ∈ seen
      · simp only [dedupFrom, if_pos hk] at h
        exact List.mem_cons_of_mem _ (ih h)
      · simp only [dedupFrom, if_neg hk, List.mem_cons] at h
        rcases h with h | h
        · exact h ▸ List.mem_cons_self _ _
        · exact List.mem_cons_of_mem _ (ih h)

theorem keyOf_not_mem_seen {x : Item} :
    ∀ {l : List Item} {seen : List DedupKey}, x ∈ dedupFrom seen l → keyOf x ∉ seen := by
  intro l
  induction l with
  | nil => intro _ h; simp [dedupFrom] at h
  | cons y ys ih =>
      intro seen h
      by_cases hk : keyOf y ∈ seen
      · simp only [dedupFrom, if_pos hk] at h
        exact ih h
      · simp only [dedupFrom, if_neg hk, List.mem_cons] at h
        rcases h with h | h
        · exact h ▸ hk
        · intro hc
          exact (ih h) (List.mem_cons_of_mem _ hc)

theorem dedupFrom_pairwise :
    ∀ (l : List Item) (seen : List DedupKey),
      (dedupFrom seen l).Pairwise (fun a b => keyOf a ≠ keyOf b) := by
  intro l
  induction l with
  | nil => intro _; simp [dedupFrom]
  | cons y ys ih =>
      intro seen
      by_cases hk : keyOf y ∈ seen
      · simpa only [dedupFrom, if_pos hk] using ih seen
      · simp only [dedupFrom, if_neg hk]
        refine List.Pairwise.cons ?_ (ih _)
        intro z hz
        have := keyOf_not_mem_seen hz
        intro he
        exact this (he ▸ List.mem_cons_self _ _)

theorem find_first_of_mem {x : Item} :
    ∀ {l : List Item} {seen : List DedupKey}, x ∈ dedupFrom seen l →
      l.find? (fun y => keyOf y == keyOf x) = some x := by
  intro l
  induction l with
  | nil => intro _ h; simp [dedupFrom] at h
  | cons y ys ih =>
      intro seen h
      by_cases hk : keyOf y ∈ seen
      · simp only [dedupFrom, if_pos hk] at h
        have hne : keyOf y ≠ keyOf x := by
          intro he
          exact (keyOf_not_mem_seen h) (he ▸ hk)
        rw [List.find?_cons_of_neg _ (by simpa using hne)]
        exact ih h
      · simp only [dedupFrom, if_neg hk, List.mem_cons] at h
        rcases h with h | h
        · subst h
          exact List.find?_cons_of_pos _ (by simp)
        · have hx := keyOf_not_mem_seen h
          have hne : keyOf y ≠ keyOf x := by
            intro he
            exact hx (he ▸ List.mem_cons_self _ _)
          rw [List.find?_cons_of_neg _ (by simpa using hne)]
          exact ih h

theorem dedupFrom_length :
    ∀ (l : List Item) (seen : List DedupKey),
      (dedupFrom seen l).length = ((l.map keyOf).toFinset \ seen.toFinset).card := by
  intro l
  induction l with
  | nil => intro seen; simp [dedupFrom]
  | cons y ys ih =>
      intro seen
      by_cases hk : keyOf y ∈ seen
      · rw [show dedupFrom seen (y :: ys) = dedupFrom seen ys from if_pos hk]
        rw [ih seen]
        congr 1
        rw [List.map_cons, List.toFinset_cons]
        rw [Finset.insert_sdiff_of_mem _ (by simpa using hk)]
      · rw [show dedupFrom seen (y :: ys) = y :: dedupFrom (keyOf y :: seen) ys from if_neg hk]
        simp only [List.length_cons, List.map_cons, List.toFinset_cons]
        rw [ih (keyOf y :: seen)]
        rw [List.toFinset_cons, Finset.sdiff_insert]
        rw [Finset.insert_sdiff_of_not_mem _ (by simpa using hk)]
        by_cases hy : keyOf y ∈ (ys.map keyOf).toFinset \ seen.toFinset
        · rw [Finset.insert_eq_self.mpr hy]
          have := Finset.card_erase_add_one hy
          omega
        · rw [Finset.erase_eq_of_not_mem hy, Finset.card_insert_of_not_mem hy]

theorem byId_id (bikes : List Item) (pid : String) :
    ∀ b, byId bikes pid = some b → b.id = some pid := by
  intro b hb
  unfold byId at hb
  have := List.find?_some hb
  simpa using this

theorem byId_isSome (bikes : List Item) (pid : String) (hne : pid ≠ "")
    (h : ∃ b ∈ bikes, b.id = some pid) : (byId bikes pid).isSome := by
  unfold byId
  rw [List.find?_isSome]
  obtain ⟨b0, hb0, hid⟩ := h
  refine ⟨b0, ?_, by simp [hid]⟩
  rw [List.mem_reverse]
  exact List.mem_filter.mpr ⟨hb0, by simp [hid, hne]⟩

/-- C1: for every catalog, profile-independent merge inputs, pinned ids and
external items, the merge assembler emits candidates in strict source
priority — the output is the first-occurrence dedup of the stream
(resolved pins, then normalized externals, then rule picks), capped at
`k`; pin ids that resolve in the catalog are placed first, so with
`pin_ids = [pid]` and a catalog record carrying id `pid`, the first output
item has id `pid` regardless of any rule-based score. -/
theorem claim_C1_merge_priority (bikes : List Item) (pins : List String)
    (exts : List ExtItem) (picked : List Item) (k : ℕ) :
    run_recommend_merge bikes pins exts picked k
      = (dedupFrom [] (candidateStream bikes pins exts picked)).take k
    ∧ (∀ pid : String, pins = [pid] → pid ≠ "" → (∃ b ∈ bikes, b.id = some pid) → 1 ≤ k →
        ∃ hd rest, run_recommend_merge bikes pins exts picked k = hd :: rest
          ∧ hd.id = some pid) := by
  constructor
  · unfold run_recommend_merge
    rw [mergeStreams_eq]
  · intro pid hpins hne hex hk
    subst hpins
    obtain ⟨b, hb⟩ := Option.isSome_iff_exists.mp (byId_isSome bikes pid hne hex)
    have hbid := byId_id bikes pid b hb
    have hres : [pid].filterMap (byId bikes) = [b] := by
      simp [List.filterMap_cons, hb]
    obtain ⟨n, rfl⟩ : ∃ n, k = n + 1 := ⟨k - 1, by omega⟩
    refine ⟨b, (dedupFrom [keyOf b]
      (exts.filterMap (fun e => (normalize_external e).toOption) ++ picked)).take n, ?_, hbid⟩
    unfold run_recommend_merge
    rw [mergeStreams_eq]
    unfold candidateStream
    rw [hres]
    simp [dedupFrom]

theorem claim_C1_witness :
    ∃ hd rest, run_recommend_merge [r3Bike] ["yamaha_r3"] [] [] 2 = hd :: rest
      ∧ hd.id = some "yamaha_r3" :=
  (claim_C1_merge_priority [r3Bike] ["yamaha_r3"] [] [] 2).2 "yamaha_r3" rfl
    (by decide) ⟨r3Bike, by simp, by simp [r3Bike]⟩ (by decide)

/-- C2: for every merge invocation the final item list is pairwise distinct
in dedup keys, and every emitted item is the first candidate bearing its
key in the priority-ordered stream — a later candidate with the same key is
never emitted and never displaces the earlier item. -/
theorem claim_C2_no_duplicates (bikes : List Item) (pins : List String)
    (exts : List ExtItem) (picked : List Item) (k : ℕ) :
    (run_recommend_merge bikes pins exts picked k).Pairwise
        (fun a b => keyOf a ≠ keyOf b)
    ∧ ∀ it ∈ run_recommend_merge bikes pins exts picked k,
        (candidateStream bikes pins exts picked).find?
          (fun y => keyOf y == keyOf it) = some it := by
  constructor
  · unfold run_recommend_merge
    rw [mergeStreams_eq]
    exact List.Pairwise.sublist (List.take_sublist _ _) (dedupFrom_pairwise _ _)
  · intro it hit
    apply find_first_of_mem
    unfold run_recommend_merge at hit
    rw [mergeStreams_eq] at hit
    exact List.take_subset _ _ hit

theorem claim_C2_witness :
    (candidateStream [rebelBike] ["honda_rebel300"] [] [rebelBike]).find?
        (fun y => keyOf y == keyOf rebelBike) = some rebelBike :=
  (claim_C2_no_duplicates [rebelBike] ["honda_rebel300"] [] [rebelBike] 5).2
    rebelBike (by decide)

/-- C3: for every merge invocation with target count `k`, the final list
has length `min k (number of distinct dedup keys among the candidates of
the three sources)`, and nothing is fabricated: every output item occurs in
the candidate stream. -/
theorem claim_C3_cap (bikes : List Item) (pins : List String)
    (exts : List ExtItem) (picked : List Item) (k : ℕ) :
    (run_recommend_merge bikes pins exts picked k).length
      = min k (((candidateStream bikes pins exts picked).map keyOf).toFinset.card)
    ∧ ∀ it ∈ run_recommend_merge bikes pins exts picked k,
        it ∈ candidateStream bikes pins exts picked := by
  constructor
  · unfold run_recommend_merge
    rw [mergeStreams_eq, List.length_take, dedupFrom_length]
    simp
  · intro it hit
    unfold run_recommend_merge at hit
    rw [mergeStreams_eq] at hit
    exact mem_of_mem_dedupFrom (List.take_subset _ _ hit)

theorem claim_C3_witness :
    rebelBike ∈ candidateStream [rebelBike] ["honda_rebel300"] [] [] :=
  (claim_C3_cap [rebelBike] ["honda_rebel300"] [] [] 2).2 rebelBike (by decide)



theorem expOf_valid (o : Option PyVal) :
    expOf o = "no_experience" ∨ expOf o = "little_experience" := by
  unfold expOf
  rcases o.getD (.str "no_experience") with _ | n | q | s | b | xs
  case str =>
      dsimp only
      by_cases h : s = "no_experience" ∨ s = "little_experience"
      · rw [if_pos h]; exact h
      · rw [if_neg h]; left; rfl
  all_goals simp

theorem clamp_bounds (n lo hi : ℤ) (h : lo ≤ hi) :
    lo ≤ clamp n lo hi ∧ clamp n lo hi ≤ hi := by
  simp only [clamp]
  omega

theorem clampE_getD_ok (o : Option PyVal) (d : ℤ) (h : intConvertible o = true)
    (lo hi : ℤ) : ∃ n, clampE (o.getD (.int d)) lo hi = .ok (clamp n lo hi) := by
  cases o with
  | none => exact ⟨d, rfl⟩
  | some v =>
      cases hv : pyInt v with
      | ok n => exact ⟨n, by simp [clampE, hv, Except.map]⟩
      | error e =>
          exfalso
          simp [intConvertible, hv, Except.isOk, Except.toBool] at h

theorem mapExcept_setMemberCheck_ok (xs : List PyVal)
    (h : ∀ v ∈ xs, (match v with | PyVal.list _ => false | _ => true) = true) :
    mapExcept setMemberCheck xs
      = .ok (xs.map (fun v =>
          match v with
          | PyVal.str s => if s ∈ ALLOWED_TYPES then some s else Option.none
          | _ => Option.none)) := by
  induction xs with
  | nil => rfl
  | cons v vs ih =>
      have hv := h v (List.mem_cons_self _ _)
      have hrest := ih (fun w hw => h w (List.mem_cons_of_mem _ hw))
      cases v <;> simp_all [setMemberCheck, mapExcept] <;> rfl

theorem filterMap_id_map_strs (xs : List PyVal) :
    ((xs.map (fun v =>
        match v with
        | PyVal.str s => if s ∈ ALLOWED_TYPES then some s else Option.none
        | _ => Option.none)).filterMap id)
      = ((xs.filterMap (fun v =>
          match v with
          | PyVal.str s => some s
          | _ => Option.none)).filter (fun t => decide (t ∈ ALLOWED_TYPES))) := by
  induction xs with
  | nil => rfl
  | cons v vs ih =>
      cases v with
      | str s =>
          by_cases h : s ∈ ALLOWED_TYPES <;>
            simp [List.map_cons, List.filterMap_cons, List.filter_cons, h, ih]
      | none => simp [List.map_cons, List.filterMap_cons, ih]
      | int n => simp [List.map_cons, List.filterMap_cons, ih]
      | float q => simp [List.map_cons, List.filterMap_cons, ih]
      | bool b => simp [List.map_cons, List.filterMap_cons, ih]
      | list ys => simp [List.map_cons, List.filterMap_cons, ih]

theorem bikeTypesOf_ok (o : Option PyVal) (h : hashableBikeTypes o = true) :
    bikeTypesOf o
      = .ok (((match o with
              | some (PyVal.list xs) =>
                  xs.filterMap (fun v =>
                    match v with
                    | PyVal.str s => some s
                    | _ => Option.none)
              | _ => ([] : List String)).filter
                (fun t => decide (t ∈ ALLOWED_TYPES))).take 5) := by
  cases o with
  | none => rfl
  | some v =>
      cases v with
      | list xs =>
          cases xs with
          | nil => rfl
          | cons y ys =>
              have hall : ∀ w ∈ y :: ys,
                  (match w with | PyVal.list _ => false | _ => true) = true := by
                intro w hw
                have h2 := h
                simp only [hashableBikeTypes, List.all_eq_true] at h2
                exact h2 w hw
              simp only [bikeTypesOf, Option.getD]
              rw [if_pos (by simp [pyTruthy])]
              dsimp only
              rw [mapExcept_setMemberCheck_ok _ hall]
              show Except.ok _ = _
              rw [filterMap_id_map_strs]
      | none => rfl
      | int n =>
          simp only [bikeTypesOf, Option.getD]
          by_cases hn : pyTruthy (PyVal.int n) = true
          · rw [if_pos hn]; rfl
          · rw [if_neg hn]; rfl
      | float q =>
          simp only [bikeTypesOf, Option.getD]
          by_cases hq : pyTruthy (PyVal.float q) = true
          · rw [if_pos hq]; rfl
          · rw [if_neg hq]; rfl
      | str s =>
          simp only [bikeTypesOf, Option.getD]
          by_cases hs : pyTruthy (PyVal.str s) = true
          · rw [if_pos hs]; rfl
          · rw [if_neg hs]; rfl
      | bool b =>
          simp only [bikeTypesOf, Option.getD]
          by_cases hb : pyTruthy (PyVal.bool b) = true
          · rw [if_pos hb]; rfl
          · rw [if_neg hb]; rfl

theorem validate_profile_ok (p : RawProfile)
    (hh : intConvertible p.height_cm = true) (hb : intConvertible p.budget_usd = true)
    (hk : intConvertible p.k = true) (hbt : hashableBikeTypes p.bike_types = true) :
    ∃ prof, validate_profile p = .ok prof := by
  obtain ⟨n1, e1⟩ := clampE_getD_ok p.height_cm 170 hh 140 210
  obtain ⟨n2, e2⟩ := clampE_getD_ok p.budget_usd 6000 hb 1000 20000
  obtain ⟨n3, e3⟩ := clampE_getD_ok p.k 3 hk 1 6
  have ebt := bikeTypesOf_ok p.bike_types hbt
  refine ⟨{ experience := expOf p.experience, height_cm := clamp n1 140 210,
            budget_usd := clamp n2 1000 20000, k := clamp n3 1 6,
            bike_types := ((rawBikeTypeStrings p).filter
              (fun t => decide (t ∈ ALLOWED_TYPES))).take 5,
            riding_style := [] }, ?_⟩
  unfold validate_profile
  rw [e1, e2, e3, ebt]
  rfl

theorem clampE_ok_inv (v : PyVal) (lo hi a : ℤ) (h : clampE v lo hi = .ok a) :
    ∃ n, a = clamp n lo hi := by
  unfold clampE at h
  cases hv : pyInt v with
  | ok n =>
      rw [hv] at h
      refine ⟨n, ?_⟩
      simpa [Except.map] using h.symm
  | error e =>
      rw [hv] at h
      simp [Except.map] at h

theorem validate_profile_inv (p : RawProfile) (prof : Profile)
    (h : validate_profile p = .ok prof) :
    prof.experience = expOf p.experience
    ∧ (∃ n, prof.height_cm = clamp n 140 210)
    ∧ (∃ n, prof.budget_usd = clamp n 1000 20000)
    ∧ (∃ n, prof.k = clamp n 1 6)
    ∧ bikeTypesOf p.bike_types = .ok prof.bike_types := by
  unfold validate_profile at h
  cases h1 : clampE (p.height_cm.getD (.int 170)) 140 210 with
  | error e => rw [h1] at h; exact absurd h (by simp [Bind.bind, Except.bind])
  | ok a1 =>
  rw [h1] at h
  cases h2 : clampE (p.budget_usd.getD (.int 6000)) 1000 20000 with
  | error e => rw [h2] at h; exact absurd h (by simp [Bind.bind, Except.bind])
  | ok a2 =>
  rw [h2] at h
  cases h3 : clampE (p.k.getD (.int 3)) 1 6 with
  | error e => rw [h3] at h; exact absurd h (by simp [Bind.bind, Except.bind])
  | ok a3 =>
  rw [h3] at h
  cases h4 : bikeTypesOf p.bike_types with
  | error e => rw [h4] at h; exact absurd h (by simp [Bind.bind, Except.bind])
  | ok bts =>
  rw [h4] at h
  have h' : Except.ok (Profile.mk (expOf p.experience) a1 a2 a3 bts []) = Except.ok prof := h
  have h'' := Except.ok.inj h'
  subst h''
  refine ⟨rfl, clampE_ok_inv _ _ _ _ h1, clampE_ok_inv _ _ _ _ h2,
    clampE_ok_inv _ _ _ _ h3, rfl⟩

theorem mapExcept_setMemberCheck_eq (xs : List PyVal) (l : List (Option String))
    (h : mapExcept setMemberCheck xs = .ok l) :
    l = xs.map (fun v =>
        match v with
        | PyVal.str s => if s ∈ ALLOWED_TYPES then some s else Option.none
        | _ => Option.none) := by
  induction xs generalizing l with
  | nil =>
      simp only [mapExcept] at h
      cases h
      rfl
  | cons v vs ih =>
      cases v with
      | list ys => simp [mapExcept, setMemberCheck, Bind.bind, Except.bind] at h
      | str s =>
          cases hrest : mapExcept setMemberCheck vs with
          | error e =>
              rw [show mapExcept setMemberCheck (PyVal.str s :: vs)
                  = do
                      let y ← setMemberCheck (PyVal.str s)
                      let ys ← mapExcept setMemberCheck vs
                      pure (y :: ys) from rfl, hrest] at h
              simp [setMemberCheck, Bind.bind, Except.bind] at h
          | ok l2 =>
              rw [show mapExcept setMemberCheck (PyVal.str s :: vs)
                  = do
                      let y ← setMemberCheck (PyVal.str s)
                      let ys ← mapExcept setMemberCheck vs
                      pure (y :: ys) from rfl, hrest] at h
              simp only [setMemberCheck, Bind.bind, Except.bind, pure, Except.pure] at h
              cases h
              simp [List.map_cons, ih l2 hrest]
      | none =>
          cases hrest : mapExcept setMemberCheck vs with
          | error e =>
              rw [show mapExcept setMemberCheck (PyVal.none :: vs)
                  = do
                      let y ← setMemberCheck PyVal.none
                      let ys ← mapExcept setMemberCheck vs
                      pure (y :: ys) from rfl, hrest] at h
              simp [setMemberCheck, Bind.bind, Except.bind] at h
          | ok l2 =>
              rw [show mapExcept setMemberCheck (PyVal.none :: vs)
                  = do
                      let y ← setMemberCheck PyVal.none
                      let ys ← mapExcept setMemberCheck vs
                      pure (y :: ys) from rfl, hrest] at h
              simp only [setMemberCheck, Bind.bind, Except.bind, pure, Except.pure] at h
              cases h
              simp [List.map_cons, ih l2 hrest]
      | int n =>
          cases hrest : mapExcept setMemberCheck vs with
          | error e =>
              rw [show mapExcept setMemberCheck (PyVal.int n :: vs)
                  = do
                      let y ← setMemberCheck (PyVal.int n)
                      let ys ← mapExcept setMemberCheck vs
                      pure (y :: ys) from rfl, hrest] at h
              simp [setMemberCheck, Bind.bind, Except.bind] at h
          | ok l2 =>
              rw [show mapExcept setMemberCheck (PyVal.int n :: vs)
                  = do
                      let y ← setMemberCheck (PyVal.int n)
                      let ys ← mapExcept setMemberCheck vs
                      pure (y :: ys) from rfl, hrest] at h
              simp only [setMemberCheck, Bind.bind, Except.bind, pure, Except.pure] at h
              cases h
              simp [List.map_cons, ih l2 hrest]
      | float q =>
          cases hrest : mapExcept setMemberCheck vs with
          | error e =>
              rw [show mapExcept setMemberCheck (PyVal.float q :: vs)
                  = do
                      let y ← setMemberCheck (PyVal.float q)
                      let ys ← mapExcept setMemberCheck vs
                      pure (y :: ys) from rfl, hrest] at h
              simp [setMemberCheck, Bind.bind, Except.bind] at h
          | ok l2 =>
              rw [show mapExcept setMemberCheck (PyVal.float q :: vs)
                  = do
                      let y ← setMemberCheck (PyVal.float q)
                      let ys ← mapExcept setMemberCheck vs
                      pure (y :: ys) from rfl, hrest] at h
              simp only [setMemberCheck, Bind.bind, Except.bind, pure, Except.pure] at h
              cases h
              simp [List.map_cons, ih l2 hrest]
      | bool b =>
          cases hrest : mapExcept setMemberCheck vs with
          | error e =>
              rw [show mapExcept setMemberCheck (PyVal.bool b :: vs)
                  = do
                      let y ← setMemberCheck (PyVal.bool b)
                      let ys ← mapExcept setMemberCheck vs
                      pure (y :: ys) from rfl, hrest] at h
              simp [setMemberCheck, Bind.bind, Except.bind] at h
          | ok l2 =>
              rw [show mapExcept setMemberCheck (PyVal.bool b :: vs)
                  = do
                      let y ← setMemberCheck (PyVal.bool b)
                      let ys ← mapExcept setMemberCheck vs
                      pure (y :: ys) from rfl, hrest] at h
              simp only [setMemberCheck, Bind.bind, Except.bind, pure, Except.pure] at h
              cases h
              simp [List.map_cons, ih l2 hrest]

theorem bikeTypesOf_eq (o : Option PyVal) (l : List String)
    (h : bikeTypesOf o = .ok l) :
    l = (((match o with
          | some (PyVal.list xs) =>
              xs.filterMap (fun v =>
                match v with
                | PyVal.str s => some s
                | _ => Option.none)
          | _ => ([] : List String)).filter
            (fun t => decide (t ∈ ALLOWED_TYPES))).take 5) := by
  cases o with
  | none =>
      have h' : Except.ok ([] : List String) = Except.ok l := h
      cases (Except.ok.inj h')
      rfl
  | some v =>
      cases v with
      | list xs =>
          cases xs with
          | nil =>
              have h' : Except.ok ([] : List String) = Except.ok l := h
              cases (Except.ok.inj h')
              rfl
          | cons y ys =>
              simp only [bikeTypesOf, Option.getD] at h
              rw [if_pos (by simp [pyTruthy])] at h
              dsimp only at h
              cases hm : mapExcept setMemberCheck (y :: ys) with
              | error e =>
                  rw [hm] at h
                  simp [Bind.bind, Except.bind] at h
              | ok kept =>
                  rw [hm] at h
                  have h' : Except.ok ((kept.filterMap id).take 5) = Except.ok l := h
                  cases (Except.ok.inj h')
                  rw [mapExcept_setMemberCheck_eq _ _ hm]
                  rw [filterMap_id_map_strs]
      | none =>
          have h' : Except.ok ([] : List String) = Except.ok l := h
          cases (Except.ok.inj h')
          rfl
      | int n =>
          simp only [bikeTypesOf, Option.getD] at h
          by_cases hn : pyTruthy (PyVal.int n) = true
          · rw [if_pos hn] at h
            have h' : Except.ok ([] : List String) = Except.ok l := h
            cases (Except.ok.inj h')
            rfl
          · rw [if_neg hn] at h
            have h' : Except.ok ([] : List String) = Except.ok l := h
            cases (Except.ok.inj h')
            rfl
      | float q =>
          simp only [bikeTypesOf, Option.getD] at h
          by_cases hq : pyTruthy (PyVal.float q) = true
          · rw [if_pos hq] at h
            have h' : Except.ok ([] : List String) = Except.ok l := h
            cases (Except.ok.inj h')
            rfl
          · rw [if_neg hq] at h
            have h' : Except.ok ([] : List String) = Except.ok l := h
            cases (Except.ok.inj h')
            rfl
      | str s =>
          simp only [bikeTypesOf, Option.getD] at h
          by_cases hs : pyTruthy (PyVal.str s) = true
          · rw [if_pos hs] at h
            have h' : Except.ok ([] : List String) = Except.ok l := h
            cases (Except.ok.inj h')
            rfl
          · rw [if_neg hs] at h
            have h' : Except.ok ([] : List String) = Except.ok l := h
            cases (Except.ok.inj h')
            rfl
      | bool b =>
          simp only [bikeTypesOf, Option.getD] at h
          by_cases hb : pyTruthy (PyVal.bool b) = true
          · rw [if_pos hb] at h
            have h' : Except.ok ([] : List String) = Except.ok l := h
            cases (Except.ok.inj h')
            rfl
          · rw [if_neg hb] at h
            have h' : Except.ok ([] : List String) = Except.ok l := h
            cases (Except.ok.inj h')
            rfl

/-- C4 counterexample: the claim says the normalizer never raises and that
a numeric field failing integer conversion falls back to its default; in
the code `clamp(p.get("height_cm", 170), 140, 210)` calls `int("tall")`
with no guard, so `validate_profile` raises `ValueError` instead of
returning the default 170. -/
theorem claim_C4_counterexample :
    validate_profile { height_cm := some (.str "tall") }
      = .error "ValueError: invalid literal for int" := by rfl

/-- C4 (amended): for every input mapping whose present numeric fields
survive `int` conversion and whose `bike_types` holds no unhashable
element, `validate_profile` returns a fully populated `RiderProfile` with
`height_cm` clamped to [140, 210], `budget_usd` to [1000, 20000], `k` to
[1, 6], `experience` in the two-value enum and at most 5 allowed
`bike_types`; a numeric field that fails integer conversion raises
(`ValueError`/`TypeError`) rather than falling back to its default. -/
theorem claim_C4_normalizer (p : RawProfile)
    (hh : intConvertible p.height_cm = true) (hb : intConvertible p.budget_usd = true)
    (hk : intConvertible p.k = true) (hbt : hashableBikeTypes p.bike_types = true) :
    ∃ prof, validate_profile p = .ok prof
      ∧ 140 ≤ prof.height_cm ∧ prof.height_cm ≤ 210
      ∧ 1000 ≤ prof.budget_usd ∧ prof.budget_usd ≤ 20000
      ∧ 1 ≤ prof.k ∧ prof.k ≤ 6
      ∧ (prof.experience = "no_experience" ∨ prof.experience = "little_experience")
      ∧ prof.bike_types.length ≤ 5
      ∧ ∀ t ∈ prof.bike_types, t ∈ ALLOWED_TYPES := by
  obtain ⟨prof, hp⟩ := validate_profile_ok p hh hb hk hbt
  obtain ⟨hexp, ⟨m1, hm1⟩, ⟨m2, hm2⟩, ⟨m3, hm3⟩, hbts⟩ := validate_profile_inv p prof hp
  have hbtl := bikeTypesOf_eq p.bike_types prof.bike_types hbts
  refine ⟨prof, hp, ?_, ?_, ?_, ?_, ?_, ?_, ?_, ?_, ?_⟩
  · rw [hm1]; exact (clamp_bounds m1 140 210 (by norm_num)).1
  · rw [hm1]; exact (clamp_bounds m1 140 210 (by norm_num)).2
  · rw [hm2]; exact (clamp_bounds m2 1000 20000 (by norm_num)).1
  · rw [hm2]; exact (clamp_bounds m2 1000 20000 (by norm_num)).2
  · rw [hm3]; exact (clamp_bounds m3 1 6 (by norm_num)).1
  · rw [hm3]; exact (clamp_bounds m3 1 6 (by norm_num)).2
  · rw [hexp]; exact expOf_valid p.experience
  · rw [hbtl]; exact List.length_take_le _ _
  · intro t ht
    rw [hbtl] at ht
    have ht2 := List.take_subset _ _ ht
    exact of_decide_eq_true (List.mem_filter.mp ht2).2

theorem claim_C4_witness :
    ∃ prof, validate_profile
        { experience := some (.str "LITTLE_EXPERIENCE"),
          height_cm := some (.str "180"), budget_usd := some (.float (mkRat 15999 2)),
          k := some (.int 99),
          bike_types := some (.list [.str "sportbike", .str "scooter", .int 3]) }
        = .ok prof
      ∧ 140 ≤ prof.height_cm ∧ prof.height_cm ≤ 210
      ∧ 1000 ≤ prof.budget_usd ∧ prof.budget_usd ≤ 20000
      ∧ 1 ≤ prof.k ∧ prof.k ≤ 6
      ∧ (prof.experience = "no_experience" ∨ prof.experience = "little_experience")
      ∧ prof.bike_types.length ≤ 5
      ∧ ∀ t ∈ prof.bike_types, t ∈ ALLOWED_TYPES :=
  claim_C4_normalizer _ (by decide) (by decide) (by decide) (by decide)

/-- C6 counterexample: the claim says a single string is accepted as a
collection and that entries are lower-cased; in the code a non-list
`bike_types` is replaced by `[]` and entries are matched case-sensitively,
so `"cruiser"` (a single string) and `["Cruiser"]` both normalize to `[]`
rather than `["cruiser"]`. -/
theorem claim_C6_counterexample :
    (validate_profile { bike_types := some (.str "cruiser") }).toOption.map
        Profile.bike_types = some []
    ∧ (validate_profile { bike_types := some (.list [.str "Cruiser"]) }).toOption.map
        Profile.bike_types = some [] := by
  exact ⟨by rfl, by rfl⟩

/-- C6 (amended): the normalizer accepts only a list for `bike_types` — a
single string or any non-list value is treated as empty; entries are kept
unchanged exactly when they are strings that match the allowed enum
case-sensitively (no lower-casing), preserving first-seen order, and the
result is truncated to at most 5 entries. -/
theorem claim_C6_bike_types (p : RawProfile) (prof : Profile)
    (h : validate_profile p = .ok prof) :
    prof.bike_types
      = ((rawBikeTypeStrings p).filter (fun t => decide (t ∈ ALLOWED_TYPES))).take 5 := by
  have hbts := (validate_profile_inv p prof h).2.2.2.2
  exact bikeTypesOf_eq p.bike_types prof.bike_types hbts

theorem claim_C6_witness :
    (Profile.mk "no_experience" 170 6000 3 ["naked", "touring"] []).bike_types
      = ((rawBikeTypeStrings
            { bike_types := some (.list [.str "naked", .str "Cruiser", .str "touring"]) }).filter
          (fun t => decide (t ∈ ALLOWED_TYPES))).take 5 :=
  claim_C6_bike_types _ _ (by rfl)

/-- C7 counterexample: the claim says the weight term is clamped to [0,1]
before the 0.25 weighting, equalling 1.0 whenever `wet_weight_kg ≤ 150`, so
the weighted contribution never exceeds 0.25; the code has
`max(0.0, 1.0 - (w - 150)/60.0)` with no upper clamp, so at `w = 90` the
unweighted term is 2 and the weighted contribution is 0.5 > 0.25. -/
theorem claim_C7_counterexample :
    wTermOf { wet_weight_kg := some 90 } = 1/2
    ∧ ¬ (wTermOf { wet_weight_kg := some 90 } ≤ 25/100) := by
  have h : wTermOf { wet_weight_kg := some 90 } = 1/2 := by
    show (25/100 : ℚ) * max 0 (1 - (90 - 150)/60) = 1/2
    rw [show ((1:ℚ) - (90 - 150)/60) = 2 by norm_num]
    rw [max_eq_right (by norm_num : (0:ℚ) ≤ 2)]
    norm_num
  refine ⟨h, ?_⟩
  rw [h]
  norm_num

/-- C7 (amended): the weight term of the rule score is
`0.25 * max(0, 1 - (w - 150)/60)`, clamped below at 0 but not above: it is
exactly 0.25 at `w = 150`, exceeds 0.25 for every `w < 150` (growing as the
weight drops), is 0 whenever `w ≥ 210`, and only for `w ≥ 150` is the
weighted contribution within [0, 0.25]. -/
theorem claim_C7_weight_term (b : Item) (w : ℚ) (hw : b.wet_weight_kg = some w) :
    (w = 150 → wTermOf b = 25/100)
    ∧ (210 ≤ w → wTermOf b = 0)
    ∧ (150 ≤ w → 0 ≤ wTermOf b ∧ wTermOf b ≤ 25/100)
    ∧ (w < 150 → 25/100 < wTermOf b) := by
  have hb : wTermOf b = (25/100) * max 0 (1 - (w - 150)/60) := by
    unfold wTermOf
    rw [hw]
  refine ⟨?_, ?_, ?_, ?_⟩
  · intro h150
    subst h150
    rw [hb, show ((1:ℚ) - (150 - 150)/60) = 1 by norm_num,
        max_eq_right (by norm_num : (0:ℚ) ≤ 1)]
    norm_num
  · intro h210
    rw [hb, max_eq_left ?_]
    · ring
    · have : (60:ℚ) ≤ (w - 150) := by linarith
      have h60 : (1:ℚ) ≤ (w - 150)/60 := by
        rw [le_div_iff₀ (by norm_num : (0:ℚ) < 60)]
        linarith
      linarith
  · intro h150
    have hd : (0:ℚ) ≤ (w - 150)/60 :=
      div_nonneg (by linarith) (by norm_num)
    have hm0 : (0:ℚ) ≤ max 0 (1 - (w - 150)/60) := le_max_left _ _
    have hm1 : max (0:ℚ) (1 - (w - 150)/60) ≤ 1 :=
      max_le (by norm_num) (by linarith)
    constructor
    · rw [hb]; nlinarith
    · rw [hb]; nlinarith
  · intro hlt
    have hd : (w - 150)/60 < 0 := div_neg_of_neg_of_pos (by linarith) (by norm_num)
    have hm : max (0:ℚ) (1 - (w - 150)/60) = 1 - (w - 150)/60 :=
      max_eq_right (by linarith)
    rw [hb, hm]
    nlinarith

theorem claim_C7_witness :
    wTermOf { wet_weight_kg := some 210 } = 0
    ∧ wTermOf { wet_weight_kg := some 150 } = 25/100 :=
  ⟨(claim_C7_weight_term { wet_weight_kg := some 210 } 210 rfl).2.1 (by norm_num),
   (claim_C7_weight_term { wet_weight_kg := some 150 } 150 rfl).1 rfl⟩

/-- C8 counterexample: the claim says the reason list is never empty (a
generic "good overall fit for beginners" reason is synthesized when no
condition holds); the code has no such fallback — a record with no ABS, no
weight and no seat height yields an empty reason list. -/
theorem claim_C8_counterexample :
    base_reason_list {} (Profile.mk "no_experience" 170 6000 3 [] []) = [] := by rfl

/-- C8 (amended): the reason list is built in the fixed order
ABS → weight → seat-height (it is a sublist of that three-reason order, so
also duplicate-free), each reason appears exactly when its underlying
condition holds, and its length is at most 5; when no condition qualifies
the list is empty — no generic reason is synthesized. -/
theorem claim_C8_reasons (bike : Item) (prof : Profile) :
    (base_reason_list bike prof).Sublist
        ["Has ABS", "Lightweight", "Seat height close to estimated inseam"]
    ∧ ("Has ABS" ∈ base_reason_list bike prof ↔ bike.abs = some true)
    ∧ ("Lightweight" ∈ base_reason_list bike prof
        ↔ ∃ w, bike.wet_weight_kg = some w ∧ w ≤ 172)
    ∧ ("Seat height close to estimated inseam" ∈ base_reason_list bike prof
        ↔ ∃ s, bike.seat_height_mm = some s
            ∧ 7/10 ≤ height_match_score (some s) prof.height_cm)
    ∧ (base_reason_list bike prof).length ≤ 5 := by
  have subA : List.Sublist
      (if bike.abs = some true then ["Has ABS"] else ([] : List String))
      ["Has ABS"] := by
    split
    · exact List.Sublist.refl _
    · exact List.nil_sublist _
  have subB : List.Sublist
      (match bike.wet_weight_kg with
       | some w => if w ≤ 172 then ["Lightweight"] else []
       | Option.none => ([] : List String))
      ["Lightweight"] := by
    rcases bike.wet_weight_kg with _ | w
    · exact List.nil_sublist _
    · dsimp only
      split
      · exact List.Sublist.refl _
      · exact List.nil_sublist _
  have subC : List.Sublist
      (match bike.seat_height_mm with
       | some s =>
           if height_match_score (some s) prof.height_cm ≥ 7/10 then
             ["Seat height close to estimated inseam"] else []
       | Option.none => ([] : List String))
      ["Seat height close to estimated inseam"] := by
    rcases bike.seat_height_mm with _ | s
    · exact List.nil_sublist _
    · dsimp only
      split
      · exact List.Sublist.refl _
      · exact List.nil_sublist _
  have hsub0 := (subA.append subB).append subC
  have heq : base_reason_list bike prof =
      (if bike.abs = some true then ["Has ABS"] else []) ++
      (match bike.wet_weight_kg with
       | some w => if w ≤ 172 then ["Lightweight"] else []
       | Option.none => []) ++
      (match bike.seat_height_mm with
       | some s =>
           if height_match_score (some s) prof.height_cm ≥ 7/10 then
             ["Seat height close to estimated inseam"] else []
       | Option.none => []) := by
    unfold base_reason_list
    exact List.take_of_length_le (le_trans hsub0.length_le (by norm_num))
  have memA : ∀ x : String,
      x ∈ (if bike.abs = some true then ["Has ABS"] else ([] : List String))
        ↔ (x = "Has ABS" ∧ bike.abs = some true) := by
    intro x
    split <;> simp_all
  have memB : ∀ x : String,
      x ∈ (match bike.wet_weight_kg with
           | some w => if w ≤ 172 then ["Lightweight"] else []
           | Option.none => ([] : List String))
        ↔ (x = "Lightweight" ∧ ∃ w, bike.wet_weight_kg = some w ∧ w ≤ 172) := by
    intro x
    rcases hw : bike.wet_weight_kg with _ | w
    · simp
    · dsimp only
      by_cases h : w ≤ 172 <;> simp [h]
  have memC : ∀ x : String,
      x ∈ (match bike.seat_height_mm with
           | some s =>
               if height_match_score (some s) prof.height_cm ≥ 7/10 then
                 ["Seat height close to estimated inseam"] else []
           | Option.none => ([] : List String))
        ↔ (x = "Seat height close to estimated inseam"
            ∧ ∃ s, bike.seat_height_mm = some s
                ∧ 7/10 ≤ height_match_score (some s) prof.height_cm) := by
    intro x
    rcases hs : bike.seat_height_mm with _ | s
    · simp
    · dsimp only
      by_cases h : height_match_score (some s) prof.height_cm ≥ 7/10 <;>
        simp [h, ge_iff_le]
  refine ⟨?_, ?_, ?_, ?_, ?_⟩
  · rw [heq]
    exact hsub0
  · rw [heq]
    simp [List.mem_append, memA, memB, memC]
  · rw [heq]
    simp [List.mem_append, memA, memB, memC]
  · rw [heq]
    simp [List.mem_append, memA, memB, memC]
  · rw [heq]
    exact le_trans hsub0.length_le (by norm_num)

/-- C9: the beginner power guard dampens only riders with `no_experience`:
for `little_experience` it is 1 (no dampening); for `no_experience` it
multiplies by 0.9 when `max_speed_mph ≥ 115` holds (also when the
`zero_to_sixty_s` criterion fails or the field is missing), by 0.9 when
`zero_to_sixty_s ≤ 5.0` holds (also when the speed criterion fails or the
field is missing), by exactly 0.81 when both criteria hold, and by 1 when
neither does; and the rule score is precisely the weighted term sum times
this guard. -/
theorem claim_C9_power_guard :
    (∀ ms zs, beginner_power_guard "little_experience" ms zs = 1)
    ∧ (∀ v w : ℚ, 115 ≤ v → 5 < w →
        beginner_power_guard "no_experience" (some v) (some w) = 9/10)
    ∧ (∀ v : ℚ, 115 ≤ v →
        beginner_power_guard "no_experience" (some v) Option.none = 9/10)
    ∧ (∀ v w : ℚ, v < 115 → w ≤ 5 →
        beginner_power_guard "no_experience" (some v) (some w) = 9/10)
    ∧ (∀ w : ℚ, w ≤ 5 →
        beginner_power_guard "no_experience" Option.none (some w) = 9/10)
    ∧ (∀ v w : ℚ, 115 ≤ v → w ≤ 5 →
        beginner_power_guard "no_experience" (some v) (some w) = 81/100)
    ∧ (∀ v w : ℚ, v < 115 → 5 < w →
        beginner_power_guard "no_experience" (some v) (some w) = 1)
    ∧ beginner_power_guard "no_experience" Option.none Option.none = 1
    ∧ (∀ (b : Item) (prof : Profile),
        scoreOf b prof = (hmTermOf b prof + wTermOf b + absTermOf b) *
          beginner_power_guard prof.experience b.max_speed_mph b.zero_to_sixty_s) := by
  refine ⟨?_, ?_, ?_, ?_, ?_, ?_, ?_, ?_, fun b prof => rfl⟩
  · intro ms zs
    unfold beginner_power_guard
    rw [if_pos (by decide)]
  · intro v w hv hw
    unfold beginner_power_guard
    rw [if_neg (by simp)]
    dsimp only
    rw [if_pos (by exact hv), if_neg (by exact not_le.mpr hw)]
    norm_num
  · intro v hv
    unfold beginner_power_guard
    rw [if_neg (by simp)]
    dsimp only
    rw [if_pos (by exact hv)]
    norm_num
  · intro v w hv hw
    unfold beginner_power_guard
    rw [if_neg (by simp)]
    dsimp only
    rw [if_neg (by exact not_le.mpr hv), if_pos (by exact hw)]
    norm_num
  · intro w hw
    unfold beginner_power_guard
    rw [if_neg (by simp)]
    dsimp only
    rw [if_pos (by exact hw)]
    norm_num
  · intro v w hv hw
    unfold beginner_power_guard
    rw [if_neg (by simp)]
    dsimp only
    rw [if_pos (by exact hv), if_pos (by exact hw)]
    norm_num
  · intro v w hv hw
    unfold beginner_power_guard
    rw [if_neg (by simp)]
    dsimp only
    rw [if_neg (by exact not_le.mpr hv), if_neg (by exact not_le.mpr hw)]
    norm_num
  · unfold beginner_power_guard
    rw [if_neg (by simp)]
    dsimp only
    norm_num

theorem claim_C9_witness :
    beginner_power_guard "little_experience" (some 200) (some 3) = 1
    ∧ beginner_power_guard "no_experience" (some 120) (some 7) = 9/10
    ∧ beginner_power_guard "no_experience" (some 100) (some 4) = 9/10
    ∧ beginner_power_guard "no_experience" (some 120) (some 4) = 81/100
    ∧ beginner_power_guard "no_experience" (some 100) (some 7) = 1 :=
  ⟨claim_C9_power_guard.1 (some 200) (some 3),
   claim_C9_power_guard.2.1 120 7 (by norm_num) (by norm_num),
   claim_C9_power_guard.2.2.2.1 100 4 (by norm_num) (by norm_num),
   claim_C9_power_guard.2.2.2.2.2.1 120 4 (by norm_num) (by norm_num),
   claim_C9_power_guard.2.2.2.2.2.2.1 100 7 (by norm_num) (by norm_num)⟩

theorem mapExcept_ok_of_forall (f : α → Except String β) (l : List α)
    (h : ∀ x ∈ l, ∃ y, f x = .ok y) : ∃ ys, mapExcept f l = .ok ys := by
  induction l with
  | nil => exact ⟨[], rfl⟩
  | cons x xs ih =>
      obtain ⟨y, hy⟩ := h x (List.mem_cons_self _ _)
      obtain ⟨ys, hys⟩ := ih (fun z hz => h z (List.mem_cons_of_mem _ hz))
      refine ⟨y :: ys, ?_⟩
      show (do
        let y ← f x
        let ys ← mapExcept f xs
        pure (y :: ys)) = Except.ok (y :: ys)
      rw [hy, hys]
      rfl

theorem buildCard_ok (b : Item) (prof : Profile)
    (h1 : b.id.isSome = true) (h2 : b.name.isSome = true)
    (h3 : b.manufacturer.isSome = true) (h4 : b.category.isSome = true) :
    ∃ c, buildCard b prof = .ok c := by
  obtain ⟨i, hi⟩ := Option.isSome_iff_exists.mp h1
  obtain ⟨n, hn⟩ := Option.isSome_iff_exists.mp h2
  obtain ⟨m, hm⟩ := Option.isSome_iff_exists.mp h3
  obtain ⟨c, hc⟩ := Option.isSome_iff_exists.mp h4
  unfold buildCard
  rw [hi, hn, hm, hc]
  exact ⟨_, rfl⟩

theorem recommendWith_ok (bikes : List Item) (prof : Profile)
    (hreq : ∀ b ∈ bikes, b.id.isSome = true ∧ b.name.isSome = true
      ∧ b.manufacturer.isSome = true ∧ b.category.isSome = true) :
    ∃ l, recommendWith bikes prof = .ok l := by
  have htop : ∀ sb ∈ (List.insertionSort (fun x y : ℚ × Item => y.1 ≤ x.1)
      ((bikes.filter (categoryKeep prof.bike_types)).map
        (fun b => (scoreOf b prof, b)))).take (prof.k * 3).toNat,
      ∃ c, buildCard sb.2 prof = .ok c := by
    intro sb hsb
    have h1 := List.take_subset _ _ hsb
    have h2 := (List.perm_insertionSort _ _).mem_iff.mp h1
    obtain ⟨b, hbmem, hbeq⟩ := List.mem_map.mp h2
    have hbikes := List.mem_of_mem_filter hbmem
    obtain ⟨hid, hname, hman, hcat⟩ := hreq b hbikes
    rw [← hbeq]
    exact buildCard_ok b prof hid hname hman hcat
  obtain ⟨ys, hys⟩ := mapExcept_ok_of_forall _ _ htop
  refine ⟨ys.take (max prof.k 1).toNat, ?_⟩
  simp only [recommendWith]
  rw [hys]
  rfl

/-- C5 counterexample: the claim says `recommend` completes without raising
even when records are missing fields; the output-building step does
`b["id"]` (and `b["name"]`, `b["manufacturer"]`, `b["category"]`)
unconditionally, so a record with none of them raises `KeyError: id`. -/
theorem claim_C5_counterexample :
    recommend [{}] {} = .error "KeyError: id" := by rfl

/-- C5 (amended): filtering and scoring degrade gracefully — a missing
spec field (`seat_height_mm`, `wet_weight_kg`, `abs`, `max_speed_mph`,
`zero_to_sixty_s`) contributes its scoring term as 0 (guard factor 1) —
and `recommend` completes without raising for every profile whose numeric
fields convert and whose records all carry the four required identity
fields `id`, `name`, `manufacturer`, `category`; a record missing one of
those raises `KeyError` in the output-building step
(`claim_C5_counterexample`). -/
theorem claim_C5_degradation (bikes : List Item) (p : RawProfile)
    (hreq : ∀ b ∈ bikes, b.id.isSome = true ∧ b.name.isSome = true
      ∧ b.manufacturer.isSome = true ∧ b.category.isSome = true)
    (hh : intConvertible p.height_cm = true) (hb : intConvertible p.budget_usd = true)
    (hk : intConvertible p.k = true) (hbt : hashableBikeTypes p.bike_types = true) :
    (∃ l, recommend bikes p = .ok l)
    ∧ (∀ (b : Item) (prof : Profile), b.seat_height_mm = Option.none →
        hmTermOf b prof = 0)
    ∧ (∀ b : Item, b.wet_weight_kg = Option.none → wTermOf b = 0)
    ∧ (∀ b : Item, b.abs = Option.none → absTermOf b = 0)
    ∧ (∀ e : String, beginner_power_guard e Option.none Option.none = 1) := by
  refine ⟨?_, ?_, ?_, ?_, ?_⟩
  · obtain ⟨prof, hprof⟩ := validate_profile_ok p hh hb hk hbt
    obtain ⟨l, hl⟩ := recommendWith_ok bikes prof hreq
    refine ⟨l, ?_⟩
    unfold recommend
    rw [hprof]
    show recommendWith bikes prof = .ok l
    exact hl
  · intro b prof hsh
    unfold hmTermOf height_match_score
    rw [hsh]
    simp
  · intro b hw
    unfold wTermOf
    rw [hw]
  · intro b ha
    unfold absTermOf
    rw [ha]
    rfl
  · intro e
    unfold beginner_power_guard
    split
    · rfl
    · simp

theorem claim_C5_witness :
    (∃ l, recommend [rebelBike] {} = .ok l)
    ∧ (∀ (b : Item) (prof : Profile), b.seat_height_mm = Option.none →
        hmTermOf b prof = 0)
    ∧ (∀ b : Item, b.wet_weight_kg = Option.none → wTermOf b = 0)
    ∧ (∀ b : Item, b.abs = Option.none → absTermOf b = 0)
    ∧ (∀ e : String, beginner_power_guard e Option.none Option.none = 1) :=
  claim_C5_degradation [rebelBike] {} (by decide) (by decide) (by decide)
    (by decide) (by decide)

theorem validate_profile_compute (E : Option PyVal) (bv : PyVal) (H K n : ℤ)
    (BT : Option PyVal) (hb : pyInt bv = .ok n) :
    validate_profile ⟨E, some (.int H), some bv, some (.int K), BT⟩
      = (bikeTypesOf BT).map (fun bts =>
          Profile.mk (expOf E) (clamp H 140 210) (clamp n 1000 20000)
            (clamp K 1 6) bts []) := by
  unfold validate_profile
  simp only [Option.getD_some]
  have e2 : clampE bv 1000 20000 = .ok (clamp n 1000 20000) := by
    simp [clampE, hb, Except.map]
  rw [e2]
  cases hbt : bikeTypesOf BT with
  | error e => rfl
  | ok bts => rfl

theorem validate_float_budget (E : Option PyVal) (H : ℤ) (q : ℚ) (K : ℤ)
    (BT : Option PyVal) :
    validate_profile ⟨E, some (.int H), some (.float q), some (.int K), BT⟩
      = (validate_profile ⟨E, some (.int H), some (.int 6000), some (.int K), BT⟩).map
          (fun prof => Profile.mk prof.experience prof.height_cm
            (clamp (ratTrunc q) 1000 20000) prof.k prof.bike_types prof.riding_style) := by
  rw [validate_profile_compute E (.float q) H K (ratTrunc q) BT rfl,
      validate_profile_compute E (.int 6000) H K 6000 BT rfl]
  cases hbt : bikeTypesOf BT with
  | error e => rfl
  | ok bts => rfl

theorem recommendWith_budget (bikes : List Item) (e : String) (h k : ℤ)
    (b1 b2 : ℤ) (bt rs : List String) :
    recommendWith bikes (Profile.mk e h b1 k bt rs)
      = recommendWith bikes (Profile.mk e h b2 k bt rs) := rfl

theorem run_recommend_clean_budget (bikes : List Item) (pins : List String)
    (exts : List ExtItem) (E : Option PyVal) (H K : ℤ) (q1 q2 : ℚ)
    (BT : Option PyVal) :
    run_recommend_clean ⟨E, some (.int H), some (.float q1), some (.int K), BT⟩
        bikes pins exts
      = run_recommend_clean ⟨E, some (.int H), some (.float q2), some (.int K), BT⟩
        bikes pins exts := by
  unfold run_recommend_clean apply_filters pick_reasons recommend profileK
  rw [validate_float_budget E H q1 K BT, validate_float_budget E H q2 K BT]
  cases hv : validate_profile ⟨E, some (.int H), some (.int 6000), some (.int K), BT⟩ with
  | error e => rfl
  | ok prof => rfl

/-- C10: for every catalog, pinned ids and external items, two raw input
profiles that differ only in their `budget_usd` value yield identical
recommendation lists in identical order: the budget is clamped into the
normalized profile but never consulted by the category filter, the scoring
engine or the merge assembler. -/
theorem claim_C10_budget_blind (bikes : List Item) (pins : List String)
    (exts : List ExtItem) (d1 d2 : RawProfile)
    (he : d1.experience = d2.experience) (hh : d1.height_cm = d2.height_cm)
    (hk : d1.k = d2.k) (hbt : d1.bike_types = d2.bike_types) :
    run_recommend d1 bikes pins exts = run_recommend d2 bikes pins exts := by
  unfold run_recommend clean_profile
  rw [he, hh, hk, hbt]
  exact run_recommend_clean_budget bikes pins exts _ _ _ _ _ _

theorem claim_C10_witness :
    run_recommend { budget_usd := some (.int 3000) } [rebelBike] [] []
      = run_recommend { budget_usd := some (.str "banana") } [rebelBike] [] [] :=
  claim_C10_budget_blind [rebelBike] [] [] _ _ rfl rfl rfl rfl
